import Mathlib

/-!
Verification of the character-counting JSON-RPC server.

The definitions below shallowly embed the Rust sources:
  src/routes/json_rpc.rs  (request/response types, json_rpc_handler)
  src/main.rs             (health_check, the router built in main)
  src/startup.rs          (the router built in startup::run)
Strings are modelled as lists of Unicode scalar values (Lean Char matches
Rust char).  Rust str::trim is modelled via the Unicode White_Space
property; str::graphemes(true).count() from the unicode-segmentation
crate is modelled by the UAX 29 extended-grapheme-cluster rules; the
classification table is restricted to the code-point ranges exercised in
this development, all remaining code points mapping to Other (the
crate's Any bucket).  serde_json serialization of the derived Serialize
impls is modelled by explicit string builders in struct-field order, and
the derived Deserialize impl for CharCountRequest by a JSON-value
decoder.
-/

/-- Unicode White_Space property, the trimming predicate of Rust
char::is_whitespace used by str::trim. -/
def isRustWhitespace (c : Char) : Bool :=
  let n := c.toNat
  (0x09 ≤ n && n ≤ 0x0D) || n == 0x20 || n == 0x85 || n == 0xA0 || n == 0x1680 ||
  (0x2000 ≤ n && n ≤ 0x200A) || n == 0x2028 || n == 0x2029 || n == 0x202F ||
  n == 0x205F || n == 0x3000

/-- Rust str::trim_start: drop leading White_Space characters. -/
def trimStart (l : List Char) : List Char :=
  l.dropWhile isRustWhitespace

/-- Rust str::trim_end: drop trailing White_Space characters. -/
def trimEnd (l : List Char) : List Char :=
  (l.reverse.dropWhile isRustWhitespace).reverse

/-- Rust str::trim: drop leading and trailing White_Space characters. -/
def rustTrim (l : List Char) : List Char :=
  trimEnd (trimStart l)

/-- Grapheme_Cluster_Break property values used by the
unicode-segmentation crate (plus ExtPict for Extended_Pictographic). -/
inductive GBP where
  | Control
  | CR
  | LF
  | Extend
  | ZWJ
  | RI
  | Prepend
  | SpacingMark
  | L
  | V
  | T
  | LV
  | LVT
  | ExtPict
  | Other
  deriving DecidableEq

/-- Grapheme_Cluster_Break classification, following the
unicode-segmentation crate tables, restricted to the code-point ranges
exercised in this development; every remaining code point is classified
Other, matching the crate's default bucket for unlisted code points. -/
def gbp (c : Char) : GBP :=
  let n := c.toNat
  if n = 0x0D then .CR
  else if n = 0x0A then .LF
  else if n < 0x20 || n = 0x7F || (0x80 ≤ n && n ≤ 0x9F) || n = 0xAD
      || n = 0x200B || (0x2028 ≤ n && n ≤ 0x202E) || (0x2060 ≤ n && n ≤ 0x2064)
      || n = 0xFEFF then .Control
  else if (0x300 ≤ n && n ≤ 0x36F) || (0x483 ≤ n && n ≤ 0x489)
      || (0x1AB0 ≤ n && n ≤ 0x1AFF) || (0x1DC0 ≤ n && n ≤ 0x1DFF)
      || n = 0x200C || (0x20D0 ≤ n && n ≤ 0x20F0)
      || (0xFE00 ≤ n && n ≤ 0xFE0F) || (0xFE20 ≤ n && n ≤ 0xFE2F)
      || (0x1F3FB ≤ n && n ≤ 0x1F3FF) then .Extend
  else if n = 0x200D then .ZWJ
  else if (0x600 ≤ n && n ≤ 0x605) || n = 0x6DD || n = 0x70F || n = 0x8E2
      || n = 0xD4E then .Prepend
  else if n = 0x903 || n = 0x93B || (0x93E ≤ n && n ≤ 0x940)
      || (0x949 ≤ n && n ≤ 0x94C) || (0x94E ≤ n && n ≤ 0x94F) then .SpacingMark
  else if (0x1100 ≤ n && n ≤ 0x115F) || (0xA960 ≤ n && n ≤ 0xA97C) then .L
  else if (0x1160 ≤ n && n ≤ 0x11A7) || (0xD7B0 ≤ n && n ≤ 0xD7C6) then .V
  else if (0x11A8 ≤ n && n ≤ 0x11FF) || (0xD7CB ≤ n && n ≤ 0xD7FB) then .T
  else if 0xAC00 ≤ n && n ≤ 0xD7A3 then
    (if (n - 0xAC00) % 28 = 0 then .LV else .LVT)
  else if 0x1F1E6 ≤ n && n ≤ 0x1F1FF then .RI
  else if n = 0x2764 || (0x1F300 ≤ n && n ≤ 0x1F5FF) || (0x1F600 ≤ n && n ≤ 0x1F64F)
      || (0x1F680 ≤ n && n ≤ 0x1F6FF) || (0x1F900 ≤ n && n ≤ 0x1F9FF) then .ExtPict
  else .Other

/-- Segmentation state carried between adjacent characters: the previous
character's class, whether the maximal Regional_Indicator run ending at
the previous character has odd length (GB12/GB13), whether the text ends
in ExtPict Extend* (for GB11), and whether it ends in
ExtPict Extend* ZWJ (GB11 proper). -/
structure GState where
  prev : GBP
  riOdd : Bool
  epSeq : Bool
  epZwj : Bool

/-- UAX 29 extended grapheme cluster boundary decision between the
previous character (summarized in the state) and the next character's
class; rules GB3,GB4,GB5,GB6,GB7,GB8,GB9,GB9a,GB9b,GB11,GB12,GB13,GB999
in order, as the unicode-segmentation crate implements them. -/
def isBreakAt (st : GState) (next : GBP) : Bool :=
  match st.prev, next with
  | .CR, .LF => false
  | .Control, _ => true
  | .CR, _ => true
  | .LF, _ => true
  | _, .Control => true
  | _, .CR => true
  | _, .LF => true
  | .L, .L => false
  | .L, .V => false
  | .L, .LV => false
  | .L, .LVT => false
  | .LV, .V => false
  | .LV, .T => false
  | .V, .V => false
  | .V, .T => false
  | .LVT, .T => false
  | .T, .T => false
  | _, .Extend => false
  | _, .ZWJ => false
  | _, .SpacingMark => false
  | .Prepend, _ => false
  | .ZWJ, .ExtPict => !st.epZwj
  | .RI, .RI => !st.riOdd
  | _, _ => true

/-- Advance the segmentation state across one character of class cat. -/
def stepState (st : GState) (cat : GBP) : GState where
  prev := cat
  riOdd := if cat = .RI then (if st.prev = .RI then !st.riOdd else true) else false
  epSeq := if cat = .ExtPict then true else (if cat = .Extend then st.epSeq else false)
  epZwj := if cat = .ZWJ then st.epSeq else false

/-- State at start of text (its prev field is never consulted: the first
character always opens a cluster, rule GB1). -/
def initState : GState :=
  ⟨.Other, false, false, false⟩

/-- Number of cluster boundaries strictly inside the remaining text,
given the state after the already-consumed characters. -/
def breakCount : GState → List Char → Nat
  | _, [] => 0
  | st, c :: t =>
      (if isBreakAt st (gbp c) then 1 else 0) + breakCount (stepState st (gbp c)) t

/-- Number of extended grapheme clusters of a string:
str::graphemes(true).count() of the unicode-segmentation crate. -/
def graphemeClusterCount : List Char → Nat
  | [] => 0
  | c :: t => 1 + breakCount (stepState initState (gbp c)) t

/-- The counting operation of json_rpc.rs lines 46 and 47: trim the
input, then count extended grapheme clusters. -/
def char_count (s : List Char) : Nat :=
  graphemeClusterCount (rustTrim s)

/-- Rust cast usize as i32: truncate to 32 bits, two's complement. -/
def wrapI32 (n : Nat) : Int :=
  let m : Nat := n % 2 ^ 32
  if m < 2 ^ 31 then (m : Int) else (m : Int) - 2 ^ 32

/-- UTF-8 byte length of a string, the measure bounded by the 4096-byte
JSON body limit installed in main.rs and startup.rs. -/
def utf8Len (l : List Char) : Nat :=
  (l.map Char.utf8Size).sum

/-- struct CharCountParams of json_rpc.rs. -/
structure CharCountParams where
  some_string : List Char
  deriving DecidableEq

/-- struct CharCountRequest of json_rpc.rs. -/
structure CharCountRequest where
  id : List Char
  jsonrpc : List Char
  method : List Char
  params : CharCountParams
  deriving DecidableEq

/-- struct CharCountResult of json_rpc.rs. -/
structure CharCountResult where
  count : Int
  deriving DecidableEq

/-- struct CharCountResponse of json_rpc.rs. -/
structure CharCountResponse where
  id : List Char
  jsonrpc : List Char
  result : CharCountResult
  deriving DecidableEq

/-- struct MethodNotFoundError of json_rpc.rs. -/
structure MethodNotFoundError where
  code : Int
  message : List Char
  deriving DecidableEq

/-- struct MethodNotFoundErrorResponse of json_rpc.rs; field declaration
order error, id, jsonrpc fixes the serialized field order. -/
structure MethodNotFoundErrorResponse where
  error : MethodNotFoundError
  id : List Char
  jsonrpc : List Char
  deriving DecidableEq

/-- The two envelope shapes a dispatched request can produce. -/
inductive RpcResponse where
  | success : CharCountResponse → RpcResponse
  | methodNotFound : MethodNotFoundErrorResponse → RpcResponse
  deriving DecidableEq

/-- An HTTP response as the handlers build it: a status code and a body. -/
structure HttpResponse where
  status : Nat
  body : List Char
  deriving DecidableEq

/-- The method-name literal matched in json_rpc.rs line 45. -/
def charCountMethod : List Char :=
  "char_count".toList

/-- The error message literal of json_rpc.rs line 60. -/
def methodNotFoundMessage : List Char :=
  "Method not found".toList

/-- Lowercase hexadecimal digit, as serde_json writes control escapes. -/
def hexDigit (n : Nat) : Char :=
  if n < 10 then Char.ofNat (48 + n) else Char.ofNat (87 + n)

/-- serde_json escaping of one character inside a JSON string: quote and
backslash are escaped, control characters below 0x20 use the short forms
or a lowercase u-escape, and everything else is emitted literally. -/
def jsonEscapeChar (c : Char) : List Char :=
  if c = '"' then ['\\', '"']
  else if c = '\\' then ['\\', '\\']
  else if c.toNat = 0x08 then ['\\', 'b']
  else if c.toNat = 0x09 then ['\\', 't']
  else if c.toNat = 0x0A then ['\\', 'n']
  else if c.toNat = 0x0C then ['\\', 'f']
  else if c.toNat = 0x0D then ['\\', 'r']
  else if c.toNat < 0x20 then
    ['\\', 'u', '0', '0', hexDigit (c.toNat / 16), hexDigit (c.toNat % 16)]
  else [c]

/-- serde_json serialization of a string value. -/
def jsonEncodeString (s : List Char) : List Char :=
  '"' :: (s.map jsonEscapeChar).flatten ++ ['"']

/-- Decimal digits of an integer, as serde_json writes an i32. -/
def intToChars (n : Int) : List Char :=
  (toString n).toList

/-- serde_json serialization of CharCountResponse: fields in declaration
order id, jsonrpc, result, nested count. -/
def serializeCharCountResponse (r : CharCountResponse) : List Char :=
  "\x7b\"id\":".toList ++ jsonEncodeString r.id
    ++ ",\"jsonrpc\":".toList ++ jsonEncodeString r.jsonrpc
    ++ ",\"result\":\x7b\"count\":".toList ++ intToChars r.result.count
    ++ "\x7d\x7d".toList

/-- serde_json serialization of MethodNotFoundErrorResponse: fields in
declaration order error, id, jsonrpc; nested code, message. -/
def serializeMethodNotFoundErrorResponse (r : MethodNotFoundErrorResponse) : List Char :=
  "\x7b\"error\":\x7b\"code\":".toList ++ intToChars r.error.code
    ++ ",\"message\":".toList ++ jsonEncodeString r.error.message
    ++ "\x7d,\"id\":".toList ++ jsonEncodeString r.id
    ++ ",\"jsonrpc\":".toList ++ jsonEncodeString r.jsonrpc
    ++ "\x7d".toList

/-- The envelope produced by the match of json_rpc_handler
(json_rpc.rs lines 44 to 68): the char_count arm trims, counts and casts
to i32, echoing id and jsonrpc; every other method name yields the
-32601 envelope, echoing id and jsonrpc. -/
def json_rpc_envelope (item : CharCountRequest) : RpcResponse :=
  if item.method = charCountMethod then
    .success ⟨item.id, item.jsonrpc, ⟨wrapI32 (char_count item.params.some_string)⟩⟩
  else
    .methodNotFound ⟨⟨-32601, methodNotFoundMessage⟩, item.id, item.jsonrpc⟩

/-- Serialization of either envelope shape. -/
def serializeEnvelope : RpcResponse → List Char
  | .success r => serializeCharCountResponse r
  | .methodNotFound r => serializeMethodNotFoundErrorResponse r

/-- fn json_rpc_handler of json_rpc.rs: both arms of the match answer
HttpResponse::Ok().json(response), status 200 with the serialized
envelope as the body. -/
def json_rpc_handler (item : CharCountRequest) : HttpResponse :=
  if item.method = charCountMethod then
    ⟨200, serializeCharCountResponse
      ⟨item.id, item.jsonrpc, ⟨wrapI32 (char_count item.params.some_string)⟩⟩⟩
  else
    ⟨200, serializeMethodNotFoundErrorResponse
      ⟨⟨-32601, methodNotFoundMessage⟩, item.id, item.jsonrpc⟩⟩

/-- fn health_check of main.rs: HttpResponse::Ok().finish(), status 200
with an empty body, taking no request data at all. -/
def health_check : HttpResponse :=
  ⟨200, []⟩

/-- HTTP methods used by the two routers. -/
inductive HttpMethod where
  | GET
  | POST
  deriving DecidableEq, BEq

/-- The handlers a route can point at. -/
inductive HandlerTag where
  | jsonRpcHandlerTag
  | healthCheckTag
  deriving DecidableEq

/-- The route table built by startup::run (startup.rs lines 40 to 47):
json_rpc_handler is registered at GET / and health_check at
GET /health_check. -/
def startupRoutes : List (HttpMethod × List Char × HandlerTag) :=
  [(.GET, "/".toList, .jsonRpcHandlerTag),
   (.GET, "/health_check".toList, .healthCheckTag)]

/-- The route table built by main (main.rs lines 87 to 93):
json_rpc_handler is registered at POST / and health_check at
GET /health_check. -/
def mainRoutes : List (HttpMethod × List Char × HandlerTag) :=
  [(.POST, "/".toList, .jsonRpcHandlerTag),
   (.GET, "/health_check".toList, .healthCheckTag)]

/-- Route resolution: first table entry matching method and path. -/
def routeLookup (routes : List (HttpMethod × List Char × HandlerTag))
    (m : HttpMethod) (p : List Char) : Option HandlerTag :=
  (routes.find? (fun r => r.1 == m && r.2.1 == p)).map (fun r => r.2.2)

/-- JSON values, for modelling the serde request decoding done by the
web::Json extractor before json_rpc_handler runs. -/
inductive JsonVal where
  | null
  | boolean : Bool → JsonVal
  | num : Int → JsonVal
  | str : List Char → JsonVal
  | arr : List JsonVal → JsonVal
  | obj : List (List Char × JsonVal) → JsonVal

/-- Field access as the derived serde Deserialize impls perform it:
unknown fields are ignored, a missing required field is an error, and a
duplicated required field is an error. -/
def findUnique (fs : List (List Char × JsonVal)) (name : List Char) : Option JsonVal :=
  match fs.filter (fun kv => kv.1 == name) with
  | [kv] => some kv.2
  | _ => none

/-- Decode a JSON value that must be a string. -/
def asString : JsonVal → Option (List Char)
  | .str s => some s
  | _ => none

/-- Derived Deserialize for CharCountParams: an object carrying a string
field some_string. -/
def paramsFromJson : JsonVal → Option CharCountParams
  | .obj fs =>
      match findUnique fs "some_string".toList with
      | some v =>
          match asString v with
          | some s => some ⟨s⟩
          | none => none
      | none => none
  | _ => none

/-- Derived Deserialize for CharCountRequest, the decoding the web::Json
extractor applies to every request body before the handler is invoked:
all four fields are required, and params must itself decode as
CharCountParams whatever the method string is. -/
def requestFromJson : JsonVal → Option CharCountRequest
  | .obj fs =>
      match findUnique fs "id".toList, findUnique fs "jsonrpc".toList,
          findUnique fs "method".toList, findUnique fs "params".toList with
      | some i, some j, some m, some p =>
          match asString i, asString j, asString m, paramsFromJson p with
          | some iv, some jv, some mv, some pv => some ⟨iv, jv, mv, pv⟩
          | _, _, _, _ => none
      | _, _, _, _ => none
  | _ => none

/-- The request id used throughout the repository's tests. -/
def uuidZero : List Char :=
  "00000000-0000-0000-0000-000000000000".toList

/-- The protocol version string used throughout the repository's tests. -/
def jsonrpcV20 : List Char :=
  "2.0".toList

/-- dropWhile is idempotent. -/
theorem dropWhile_idem (p : Char → Bool) (l : List Char) :
    List.dropWhile p (List.dropWhile p l) = List.dropWhile p l := by
  induction l with
  | nil => rfl
  | cons c t ih =>
      by_cases h : p c
      · simp [List.dropWhile_cons, h, ih]
      · simp [List.dropWhile_cons, h]

/-- dropWhile never lengthens a list. -/
theorem length_dropWhile_le (p : Char → Bool) (l : List Char) :
    (List.dropWhile p l).length ≤ l.length := by
  induction l with
  | nil => simp
  | cons c t ih =>
      by_cases h : p c
      · simp only [List.dropWhile_cons, h, if_true]
        exact Nat.le_trans ih (Nat.le_succ _)
      · simp [List.dropWhile_cons, h]

/-- A list fixed by dropWhile has a head falsifying the predicate. -/
theorem head_false_of_dropWhile_self (p : Char → Bool) (c : Char) (t : List Char)
    (h : List.dropWhile p (c :: t) = c :: t) : p c = false := by
  by_cases hc : p c
  · exfalso
    rw [List.dropWhile_cons, if_pos hc] at h
    have hlen := congrArg List.length h
    have hle := length_dropWhile_le p t
    simp at hlen
    omega
  · simpa using hc

/-- The dropped part of dropWhile is an initial segment of the list. -/
theorem dropWhile_decomp (p : Char → Bool) (l : List Char) :
    ∃ u, l = u ++ List.dropWhile p l := by
  induction l with
  | nil => exact ⟨[], rfl⟩
  | cons c t ih =>
      by_cases h : p c
      · obtain ⟨u, hu⟩ := ih
        refine ⟨c :: u, ?_⟩
        rw [List.dropWhile_cons, if_pos h, List.cons_append, ← hu]
      · exact ⟨[], by rw [List.dropWhile_cons, if_neg h, List.nil_append]⟩

/-- Trimming the end of a list already trimmed at the start leaves a
list still trimmed at the start. -/
theorem trimStart_trimEnd (l : List Char) (h : trimStart l = l) :
    trimStart (trimEnd l) = trimEnd l := by
  cases hd : trimEnd l with
  | nil => rfl
  | cons c t =>
      obtain ⟨u, hu⟩ := dropWhile_decomp isRustWhitespace l.reverse
      have hl : l = trimEnd l ++ u.reverse := by
        have h2 := congrArg List.reverse hu
        simp only [List.reverse_reverse, List.reverse_append] at h2
        exact h2.trans (by rw [trimEnd])
      rw [hd] at hl
      have h3 : List.dropWhile isRustWhitespace (c :: (t ++ u.reverse))
          = c :: (t ++ u.reverse) := by
        have h4 : l = c :: (t ++ u.reverse) := by simpa using hl
        rw [← h4]
        rw [trimStart] at h
        rw [h, h4]
      have hc := head_false_of_dropWhile_self isRustWhitespace c (t ++ u.reverse) h3
      rw [trimStart, List.dropWhile_cons, if_neg (by simp [hc])]

/-- trimEnd is idempotent. -/
theorem trimEnd_idem (l : List Char) : trimEnd (trimEnd l) = trimEnd l := by
  unfold trimEnd
  rw [List.reverse_reverse, dropWhile_idem]

/-- Rust str::trim is idempotent: the code's counting input is a fixed
point of trimming. -/
theorem rustTrim_idem (s : List Char) : rustTrim (rustTrim s) = rustTrim s := by
  have h1 : trimStart (trimStart s) = trimStart s := dropWhile_idem _ _
  have h2 : trimStart (trimEnd (trimStart s)) = trimEnd (trimStart s) :=
    trimStart_trimEnd _ h1
  show trimEnd (trimStart (trimEnd (trimStart s))) = trimEnd (trimStart s)
  rw [h2, trimEnd_idem]

/-- Internal boundaries never outnumber the remaining characters. -/
theorem breakCount_le_length (l : List Char) (st : GState) :
    breakCount st l ≤ l.length := by
  induction l generalizing st with
  | nil => simp [breakCount]
  | cons c t ih =>
      simp only [breakCount, List.length_cons]
      have h := ih (stepState st (gbp c))
      by_cases hb : isBreakAt st (gbp c) <;> simp [hb] <;> omega

/-- A string never has more grapheme clusters than characters. -/
theorem graphemeClusterCount_le_length (l : List Char) :
    graphemeClusterCount l ≤ l.length := by
  cases l with
  | nil => simp [graphemeClusterCount]
  | cons c t =>
      simp only [graphemeClusterCount, List.length_cons]
      have h := breakCount_le_length t (stepState initState (gbp c))
      omega

/-- Trimming never lengthens a string. -/
theorem rustTrim_length_le (l : List Char) : (rustTrim l).length ≤ l.length := by
  show (trimEnd (trimStart l)).length ≤ l.length
  unfold trimEnd trimStart
  rw [List.length_reverse]
  calc (List.dropWhile isRustWhitespace (List.dropWhile isRustWhitespace l).reverse).length
      ≤ (List.dropWhile isRustWhitespace l).reverse.length :=
        length_dropWhile_le _ _
    _ = (List.dropWhile isRustWhitespace l).length := List.length_reverse _
    _ ≤ l.length := length_dropWhile_le _ _

/-- Every scalar value takes at least one UTF-8 byte. -/
theorem length_le_utf8Len (l : List Char) : l.length ≤ utf8Len l := by
  induction l with
  | nil => simp [utf8Len]
  | cons c t ih =>
      have hc : 1 ≤ c.utf8Size := Char.utf8Size_pos c
      simp only [utf8Len, List.map_cons, List.sum_cons, List.length_cons] at *
      omega

/-- The usize-to-i32 cast is the identity below 2 to the 31. -/
theorem wrapI32_of_lt (n : Nat) (h : n < 2 ^ 31) : wrapI32 n = (n : Int) := by
  unfold wrapI32
  have h32 : n < 2 ^ 32 := by omega
  rw [Nat.mod_eq_of_lt h32, if_pos h]

/-- The id carried by either envelope shape. -/
def envelopeId : RpcResponse → List Char
  | .success r => r.id
  | .methodNotFound r => r.id

/-- The jsonrpc version carried by either envelope shape. -/
def envelopeJsonrpc : RpcResponse → List Char
  | .success r => r.jsonrpc
  | .methodNotFound r => r.jsonrpc

/-- Replace the jsonrpc field of an envelope, keeping everything else. -/
def setEnvelopeJsonrpc : RpcResponse → List Char → RpcResponse
  | .success r, v => .success ⟨r.id, v, r.result⟩
  | .methodNotFound r, v => .methodNotFound ⟨r.error, r.id, v⟩

/-- C1: for every string s passed as some_string to the char_count
method (within the 4096-byte body cap installed on the JSON extractor),
the dispatcher answers a success envelope whose count equals the number
of extended grapheme clusters of s after Unicode-aware trimming, and
that count is a non-negative integer. -/
theorem char_count_correct (idv jv s : List Char) (h : utf8Len s ≤ 4096) :
    json_rpc_envelope ⟨idv, jv, charCountMethod, ⟨s⟩⟩ =
      .success ⟨idv, jv, ⟨(graphemeClusterCount (rustTrim s) : Int)⟩⟩ ∧
    0 ≤ ((graphemeClusterCount (rustTrim s) : Int)) := by
  have hle : char_count s < 2 ^ 31 := by
    have h1 := graphemeClusterCount_le_length (rustTrim s)
    have h2 := rustTrim_length_le s
    have h3 := length_le_utf8Len s
    unfold char_count
    omega
  constructor
  · unfold json_rpc_envelope
    rw [if_pos rfl]
    rw [wrapI32_of_lt _ hle]
    rfl
  · exact Int.natCast_nonneg _

/-- Witness for C1 at the repository's end-to-end input. -/
theorem char_count_correct_witness :
    utf8Len " Oliver ".toList ≤ 4096 ∧
    (json_rpc_envelope ⟨uuidZero, jsonrpcV20, charCountMethod, ⟨" Oliver ".toList⟩⟩ =
        .success ⟨uuidZero, jsonrpcV20,
          ⟨(graphemeClusterCount (rustTrim " Oliver ".toList) : Int)⟩⟩ ∧
      0 ≤ ((graphemeClusterCount (rustTrim " Oliver ".toList) : Int))) :=
  ⟨by decide, char_count_correct uuidZero jsonrpcV20 " Oliver ".toList (by decide)⟩

/-- C2: every request whose method is not char_count is answered with
the -32601 Method not found envelope, id and jsonrpc copied from the
request, and the envelope serializes with field order error, id,
jsonrpc. -/
theorem method_not_found_envelope (r : CharCountRequest) (h : r.method ≠ charCountMethod) :
    json_rpc_envelope r =
      .methodNotFound ⟨⟨-32601, methodNotFoundMessage⟩, r.id, r.jsonrpc⟩ ∧
    (json_rpc_handler r).body =
      "\x7b\"error\":\x7b\"code\":-32601,\"message\":\"Method not found\"\x7d,\"id\":".toList
        ++ jsonEncodeString r.id ++ ",\"jsonrpc\":".toList
        ++ jsonEncodeString r.jsonrpc ++ "\x7d".toList := by
  constructor
  · unfold json_rpc_envelope
    rw [if_neg h]
  · unfold json_rpc_handler
    rw [if_neg h]
    rfl

/-- Witness for C2 at the repository's own unknown-method test input. -/
theorem method_not_found_envelope_witness :
    ("wrong".toList ≠ charCountMethod) ∧
    (json_rpc_envelope ⟨uuidZero, jsonrpcV20, "wrong".toList, ⟨"Oliver".toList⟩⟩ =
        .methodNotFound ⟨⟨-32601, methodNotFoundMessage⟩, uuidZero, jsonrpcV20⟩ ∧
      (json_rpc_handler ⟨uuidZero, jsonrpcV20, "wrong".toList, ⟨"Oliver".toList⟩⟩).body =
        "\x7b\"error\":\x7b\"code\":-32601,\"message\":\"Method not found\"\x7d,\"id\":".toList
          ++ jsonEncodeString uuidZero ++ ",\"jsonrpc\":".toList
          ++ jsonEncodeString jsonrpcV20 ++ "\x7d".toList) :=
  ⟨by decide,
    method_not_found_envelope ⟨uuidZero, jsonrpcV20, "wrong".toList, ⟨"Oliver".toList⟩⟩
      (by decide)⟩

/-- C5: id and jsonrpc are echoed unchanged from request to response on
both the success and the error path. -/
theorem id_jsonrpc_echoed (r : CharCountRequest) :
    envelopeId (json_rpc_envelope r) = r.id ∧
    envelopeJsonrpc (json_rpc_envelope r) = r.jsonrpc := by
  unfold json_rpc_envelope
  by_cases h : r.method = charCountMethod <;> simp [h, envelopeId, envelopeJsonrpc]

/-- C6: every dispatched request is answered with HTTP status 200,
whether the envelope is a success or an error envelope. -/
theorem status_always_200 (r : CharCountRequest) :
    (json_rpc_handler r).status = 200 := by
  unfold json_rpc_handler
  by_cases h : r.method = charCountMethod <;> simp [h]

/-- C7: leading and trailing whitespace never affect the count, and the
end-to-end char_count request for the padded string Oliver yields the
exact success body with count 6 and id and jsonrpc echoed. -/
theorem trim_invariance_end_to_end :
    (∀ s : List Char, char_count s = char_count (rustTrim s)) ∧
    json_rpc_handler ⟨uuidZero, jsonrpcV20, charCountMethod, ⟨" Oliver ".toList⟩⟩ =
      ⟨200, ("\x7b\"id\":\"00000000-0000-0000-0000-000000000000\","
        ++ "\"jsonrpc\":\"2.0\",\"result\":\x7b\"count\":6\x7d\x7d").toList⟩ := by
  constructor
  · intro s
    unfold char_count
    rw [rustTrim_idem]
  · decide

/-- C8: the counter meets the concrete values of the spec, and any base
character (not a Control, CR or LF class character) followed by a
combining mark of class Extend forms a single counted unit, not two. -/
theorem concrete_counts (b m : Char) (hm : gbp m = .Extend)
    (h1 : gbp b ≠ .Control) (h2 : gbp b ≠ .CR) (h3 : gbp b ≠ .LF) :
    char_count [] = 0 ∧ char_count "   ".toList = 0 ∧
    char_count "Oliver".toList = 6 ∧ char_count ['e', '́'] = 1 ∧
    graphemeClusterCount [b, m] = 1 := by
  refine ⟨by decide, by decide, by decide, by decide, ?_⟩
  have hb : isBreakAt (stepState initState (gbp b)) (gbp m) = false := by
    rw [hm]
    cases hgb : gbp b
    case Control => exact absurd hgb h1
    case CR => exact absurd hgb h2
    case LF => exact absurd hgb h3
    all_goals rfl
  simp [graphemeClusterCount, breakCount, hb]

/-- Witness for C8 at the letter e followed by a combining acute accent. -/
theorem concrete_counts_witness :
    (gbp '́' = .Extend ∧ gbp 'e' ≠ .Control ∧ gbp 'e' ≠ .CR ∧ gbp 'e' ≠ .LF) ∧
    (char_count [] = 0 ∧ char_count "   ".toList = 0 ∧
      char_count "Oliver".toList = 6 ∧ char_count ['e', '́'] = 1 ∧
      graphemeClusterCount ['e', '́'] = 1) :=
  ⟨⟨by decide, by decide, by decide, by decide⟩,
    concrete_counts 'e' '́' (by decide) (by decide) (by decide) (by decide)⟩

/-- C10: the protocol version is never validated: replacing the jsonrpc
field of any request changes nothing but the echoed jsonrpc field of the
envelope, and an error envelope arises exactly when the method is
unknown, independent of the version value. -/
theorem version_never_validated (r : CharCountRequest) (v : List Char) :
    json_rpc_envelope ⟨r.id, v, r.method, r.params⟩ =
      setEnvelopeJsonrpc (json_rpc_envelope r) v ∧
    envelopeJsonrpc (json_rpc_envelope ⟨r.id, v, r.method, r.params⟩) = v ∧
    ((∃ e, json_rpc_envelope ⟨r.id, v, r.method, r.params⟩ = .methodNotFound e) ↔
      r.method ≠ charCountMethod) := by
  unfold json_rpc_envelope
  by_cases h : r.method = charCountMethod
  · simp [h, setEnvelopeJsonrpc, envelopeJsonrpc]
  · simp [h, setEnvelopeJsonrpc, envelopeJsonrpc]

/-- C3 counterexample: the claim says an unknown-method request reaches
the dispatcher regardless of the shape of its params, but the web::Json
extractor decodes params as CharCountParams for every method, so the
unknown-method request whose params is the empty object fails to decode
and never reaches the dispatcher. -/
theorem params_validated_counterexample :
    requestFromJson (.obj [("id".toList, .str uuidZero),
      ("jsonrpc".toList, .str jsonrpcV20),
      ("method".toList, .str "wrong".toList),
      ("params".toList, .obj [])]) = none := by
  rfl

/-- C3 amended: params are validated against the CharCountParams shape
at decode time for every method, including unknown ones; a request whose
params object lacks a string some_string field never reaches the
dispatcher, while a request that does decode receives the
method-not-found envelope for an unknown method regardless of the
decoded params value. -/
theorem params_validated_before_dispatch (r : CharCountRequest) (p : CharCountParams)
    (h : r.method ≠ charCountMethod) :
    json_rpc_envelope ⟨r.id, r.jsonrpc, r.method, p⟩ =
      .methodNotFound ⟨⟨-32601, methodNotFoundMessage⟩, r.id, r.jsonrpc⟩ ∧
    (∀ iv jv mv : List Char,
      requestFromJson (.obj [("id".toList, .str iv), ("jsonrpc".toList, .str jv),
        ("method".toList, .str mv), ("params".toList, .obj [])]) = none) := by
  constructor
  · unfold json_rpc_envelope
    rw [if_neg h]
  · intro iv jv mv
    rfl

/-- Witness for the amended C3 at a concrete unknown-method request. -/
theorem params_validated_before_dispatch_witness :
    ("wrong".toList ≠ charCountMethod) ∧
    (json_rpc_envelope ⟨uuidZero, jsonrpcV20, "wrong".toList, ⟨[]⟩⟩ =
        .methodNotFound ⟨⟨-32601, methodNotFoundMessage⟩, uuidZero, jsonrpcV20⟩ ∧
      (∀ iv jv mv : List Char,
        requestFromJson (.obj [("id".toList, .str iv), ("jsonrpc".toList, .str jv),
          ("method".toList, .str mv), ("params".toList, .obj [])]) = none)) :=
  ⟨by decide,
    params_validated_before_dispatch ⟨uuidZero, jsonrpcV20, "wrong".toList, ⟨"x".toList⟩⟩
      ⟨[]⟩ (by decide)⟩

/-- C4: evaluation of the two route tables at the claimed route.  The
router built by startup::run does not route POST / at all (it registers
json_rpc_handler at GET /), while the router built by main does route
POST / to the dispatcher; the claim holds only of the latter. -/
theorem startup_route_is_get_not_post :
    routeLookup startupRoutes .POST "/".toList = none ∧
    routeLookup startupRoutes .GET "/".toList = some .jsonRpcHandlerTag ∧
    routeLookup mainRoutes .POST "/".toList = some .jsonRpcHandlerTag := by
  decide

/-- C9: health_check answers HTTP 200 with an empty body, takes no
request data at all, and is registered at GET /health_check in both
routers. -/
theorem health_check_always_ok :
    health_check.status = 200 ∧ health_check.body = [] ∧
    routeLookup startupRoutes .GET "/health_check".toList = some .healthCheckTag ∧
    routeLookup mainRoutes .GET "/health_check".toList = some .healthCheckTag := by
  decide
